import Mathlib

/-!
Verification of the LiveBench judgment/game-key reconciliation logic and the
house-traversal scorer, shallowly embedded from `livebench/common.py` and
`livebench/process_results/reasoning/house_traversal/utils.py`.

Python dicts (which preserve insertion order and update values in place) are
embedded as association lists `List (key × value)`; exceptions are embedded
as `Except`/`Option` results.
-/

set_option maxHeartbeats 1000000

namespace LiveBench

/-! ### Association-list model of Python dicts -/

/-- Lookup in an ordered association list: the embedding of `d[k]` /
`d.get(k)` on a Python dict (first matching key; keys are unique in every
dict built below). -/
def alist_lookup {α β : Type} [DecidableEq α] (l : List (α × β)) (k : α) : Option β :=
  match l with
  | [] => none
  | p :: t => if p.1 = k then some p.2 else alist_lookup t k

/-- Insertion into an ordered association list: the embedding of
`d[k] = v` on a Python dict.  An existing key keeps its position and gets the
new value; a new key is appended at the end, matching Python's
insertion-order semantics. -/
def alist_insert {α β : Type} [DecidableEq α] (l : List (α × β)) (k : α) (v : β) : List (α × β) :=
  match l with
  | [] => [(k, v)]
  | p :: t => if p.1 = k then (k, v) :: t else p :: alist_insert t k v

/-- Lexicographic comparison of char lists by code point (auxiliary for
`pyStrLt`). -/
def listCharLt : List Char → List Char → Bool
  | _, [] => false
  | [], _ :: _ => true
  | a :: as, b :: bs => if a = b then listCharLt as bs else decide (a < b)

/-- Embedding of Python's `<` on strings: lexicographic comparison by code
point, a proper prefix being smaller.  (Lean's own `String.ltb` is defined by
well-founded recursion and does not evaluate in the kernel, so the comparison
is spelled out on the underlying char lists.) -/
def pyStrLt (a b : String) : Bool :=
  listCharLt a.data b.data

/-! ### Data model -/

/-- A pairwise game key `(question_id, model_1, model_2)`. -/
abbrev GameKey := Nat × String × String

/-- Pairwise judge result: `{winners, g1_judgment, g2_judgment}`. -/
structure PairResult where
  winners : List String
  g1_judgment : String
  g2_judgment : String
deriving DecidableEq

/-- Mapping from game keys to pairwise results (one judge's sub-index). -/
abbrev JudgmentDict := List (GameKey × PairResult)

/-- Mapping from judge identity (a tuple of strings) to its judgment dict. -/
abbrev JudgeDict := List (List String × JudgmentDict)

/-! ### GameKey canonicalizer (`normalize_game_key_single`, common.py:448-460) -/

/-- Modelled from the spec: the fixed winner-relabeling table
`reverse_model_map` is referenced by `normalize_game_key_single` but defined
outside the provided sources.  Per the spec it swaps the two position labels
(`model_1` ↔ `model_2`, i.e. first-shown vs second-shown) and lets
position-independent labels (model names, "inconsistent", "tie", ...) pass
through unchanged, as `reverse_model_map.get(x, x)` does. -/
def reverse_model_map (x : String) : String :=
  if x = "model_1" then "model_2"
  else if x = "model_2" then "model_1"
  else x

/-- Embedding of `normalize_game_key_single` (common.py:448-460). -/
def normalize_game_key_single (gamekey : GameKey) (result : PairResult) :
    GameKey × PairResult :=
  let qid := gamekey.1
  let model_1 := gamekey.2.1
  let model_2 := gamekey.2.2
  if pyStrLt model_1 model_2 then
    (gamekey, result)
  else
    ((qid, model_2, model_1),
     { winners := result.winners.map (fun x => reverse_model_map x)
       g1_judgment := result.g2_judgment
       g2_judgment := result.g1_judgment })

/-! ### GameKey dict normalization (`normalize_game_key_dict`, common.py:463-469) -/

/-- Loop body of `normalize_game_key_dict`: `ret` accumulates the new dict
while the input entries are traversed in order. -/
def normalize_dict_go : JudgmentDict → JudgmentDict → JudgmentDict
  | ret, [] => ret
  | ret, (key, value) :: rest =>
    let nkv := normalize_game_key_single key value
    normalize_dict_go (alist_insert ret nkv.1 nkv.2) rest

/-- Embedding of `normalize_game_key_dict` (common.py:463-469): starts from
an empty dict and stores the normalization of every entry. -/
def normalize_game_key_dict (judgment_dict : JudgmentDict) : JudgmentDict :=
  normalize_dict_go [] judgment_dict

/-! ### Pairwise judgment loader (`load_pairwise_model_judgments`, common.py:472-512) -/

/-- One parsed line of a pairwise judgment file.  Optional fields of the JSON
object are embedded as `Option`; `"winner" in obj` becomes `winner.isSome`. -/
structure PairRecord where
  judge : List String
  question_id : Nat
  model_1 : String
  model_2 : String
  winner : Option String
  g1_winner : Option String
  g2_winner : Option String
  g1_judgment : String
  g2_judgment : String
deriving DecidableEq

/-- The winner-derivation branch of `load_pairwise_model_judgments`
(common.py:488-497): a `winner` field wins outright; otherwise both
`g1_winner` and `g2_winner` must be present (equal values are kept, differing
values give `"inconsistent"`); otherwise the loader raises `ValueError`. -/
def derive_winner (obj : PairRecord) : Except String String :=
  match obj.winner with
  | some w => Except.ok w
  | none =>
    match obj.g1_winner, obj.g2_winner with
    | some g1_winner, some g2_winner =>
      if g1_winner = g2_winner then Except.ok g1_winner
      else Except.ok "inconsistent"
    | _, _ => Except.error "Invalid keys"

/-- Processing of one record inside the loader loop (common.py:480-506):
ensure the judge has an entry, derive the winner, then store the result under
the raw game key. -/
def load_pairwise_step (judge_dict : JudgeDict) (obj : PairRecord) :
    Except String JudgeDict :=
  let judge_dict :=
    if (alist_lookup judge_dict obj.judge).isSome then judge_dict
    else alist_insert judge_dict obj.judge []
  match derive_winner obj with
  | Except.error e => Except.error e
  | Except.ok winner =>
    let gamekey : GameKey := (obj.question_id, obj.model_1, obj.model_2)
    let inner := (alist_lookup judge_dict obj.judge).getD []
    Except.ok (alist_insert judge_dict obj.judge
      (alist_insert inner gamekey ⟨[winner], obj.g1_judgment, obj.g2_judgment⟩))

/-- The loader loop over the record stream. -/
def load_pairwise_go : List PairRecord → JudgeDict → Except String JudgeDict
  | [], judge_dict => Except.ok judge_dict
  | obj :: rest, judge_dict =>
    match load_pairwise_step judge_dict obj with
    | Except.error e => Except.error e
    | Except.ok judge_dict => load_pairwise_go rest judge_dict

/-- Embedding of `load_pairwise_model_judgments` (common.py:472-512): parse
every line into the judge dict, then normalize each judge's game keys. -/
def load_pairwise_model_judgments (records : List PairRecord) :
    Except String JudgeDict :=
  match load_pairwise_go records [] with
  | Except.error e => Except.error e
  | Except.ok judge_dict =>
    Except.ok (judge_dict.map (fun jp => (jp.1, normalize_game_key_dict jp.2)))

/-! ### Questions, answers and match records (common.py:50-56, 175-195, 613-621) -/

/-- The question fields used by the embedded functions: `question_id`,
`category` and `turns`. -/
structure Question where
  question_id : Nat
  category : String
  turns : List String
deriving DecidableEq

/-- Embedding of the nested dict `model_answers`:
model name → (question id → answer).  Answer payloads are opaque strings. -/
abbrev ModelAnswers := List (String × List (Nat × String))

/-- Embedding of the dataclass `MatchSingle` (common.py:50-56). -/
structure MatchSingle where
  question : Question
  model : String
  answer : String
  ref_answer : Option String := none
  multi_turn : Bool := false
deriving DecidableEq

/-- Inner loop of `make_match_single` over the model list, for one question:
the two dict subscripts `model_answers[m][q_id]` raise `KeyError` when
absent. -/
def make_match_inner (q : Question) (model_answers : ModelAnswers)
    (multi_turn : Bool) : List String → List MatchSingle →
    Except String (List MatchSingle)
  | [], acc_matches => Except.ok acc_matches
  | m :: ms, acc_matches =>
    match alist_lookup model_answers m with
    | none => Except.error "KeyError"
    | some m_answer =>
      match alist_lookup m_answer q.question_id with
      | none => Except.error "KeyError"
      | some a =>
        make_match_inner q model_answers multi_turn ms
          (acc_matches ++ [⟨q, m, a, none, multi_turn⟩])

/-- Outer loop of `make_match_single` over the questions: a question with a
turn count other than 2 is skipped when `multi_turn` is set. -/
def make_match_go (models : List String) (model_answers : ModelAnswers)
    (multi_turn : Bool) : List Question → List MatchSingle →
    Except String (List MatchSingle)
  | [], acc_matches => Except.ok acc_matches
  | q :: qs, acc_matches =>
    if multi_turn && q.turns.length != 2 then
      make_match_go models model_answers multi_turn qs acc_matches
    else
      match make_match_inner q model_answers multi_turn models acc_matches with
      | Except.error e => Except.error e
      | Except.ok acc_matches => make_match_go models model_answers multi_turn qs acc_matches

/-- Embedding of `make_match_single` (common.py:175-195). -/
def make_match_single (questions : List Question) (models : List String)
    (model_answers : ModelAnswers) (multi_turn : Bool) :
    Except String (List MatchSingle) :=
  make_match_go models model_answers multi_turn questions []

/-- The two assertion failures of `check_data`: the first names only the
model, the second names the model and the question id. -/
inductive CheckError where
  | missingModel (m : String)
  | missingAnswer (m : String) (qid : Nat)
deriving DecidableEq

/-- Inner loop of `check_data` over the questions for one model. -/
def check_model (m : String) (m_answer : List (Nat × String)) :
    List Question → Except CheckError Unit
  | [] => Except.ok ()
  | q :: qs =>
    if (alist_lookup m_answer q.question_id).isSome then check_model m m_answer qs
    else Except.error (CheckError.missingAnswer m q.question_id)

/-- Embedding of `check_data` (common.py:613-621): outer loop over the model
list, inner loop over the questions; the first failing assertion raises. -/
def check_data (questions : List Question) (model_answers : ModelAnswers) :
    List String → Except CheckError Unit
  | [] => Except.ok ()
  | m :: ms =>
    match alist_lookup model_answers m with
    | none => Except.error (CheckError.missingModel m)
    | some m_answer =>
      match check_model m m_answer questions with
      | Except.error e => Except.error e
      | Except.ok _ => check_data questions model_answers ms

/-- Statement predicate: model `m` has an entry in the answer dict that
answers every question of `questions`. -/
def model_complete (questions : List Question) (model_answers : ModelAnswers)
    (m : String) : Prop :=
  ∃ ma, alist_lookup model_answers m = some ma ∧
    ∀ q ∈ questions, (alist_lookup ma q.question_id).isSome = true

/-! ### Judgment resolver (`resolve_pairwise_judgment_dict`, common.py:540-552) -/

/-- Embedding of `resolve_pairwise_judgment_dict` (common.py:540-552).
Modelled from the spec: the fixed category set `NEED_REF_CATS` is referenced
by the source but defined outside the provided files; the spec describes it
as "a fixed configured set of categories", so it is passed here as the
parameter `need_ref_cats` and only membership in it is used.  A dict
subscript with an absent judge key raises `KeyError`. -/
def resolve_pairwise_judgment_dict (need_ref_cats : List String)
    (question : Question)
    (model_judgments_normal model_judgments_math :
      List ((String × String) × JudgmentDict))
    (multi_turn : Bool) : Except String JudgmentDict :=
  if multi_turn then
    if question.category ∈ need_ref_cats then
      match alist_lookup model_judgments_math ("gpt-4", "pair-math-v1-multi-turn") with
      | some d => Except.ok d
      | none => Except.error "KeyError"
    else
      match alist_lookup model_judgments_normal ("gpt-4", "pair-v2-multi-turn") with
      | some d => Except.ok d
      | none => Except.error "KeyError"
  else
    if question.category ∈ need_ref_cats then
      match alist_lookup model_judgments_math ("gpt-4", "pair-math-v1") with
      | some d => Except.ok d
      | none => Except.error "KeyError"
    else
      match alist_lookup model_judgments_normal ("gpt-4", "pair-v2") with
      | some d => Except.ok d
      | none => Except.error "KeyError"

/-! ### Explanation formatters (common.py:570-610) -/

/-- The f-string template rendered by `get_pairwise_judge_explanation`. -/
def pairwise_explanation_text (model_1 model_2 g1 g2 : String) : String :=
  "**Game 1**. **A**: " ++ model_1 ++ ", **B**: " ++ model_2 ++
    "\n\n**Judgment**: " ++ g1 ++
    "\n\n`--------------------------`\n\n" ++
    "**Game 2**. **A**: " ++ model_2 ++ ", **B**: " ++ model_1 ++
    "\n\n**Judgment**: " ++ g2

/-- Embedding of `get_pairwise_judge_explanation` (common.py:570-592): the
dict subscript may raise `KeyError`, which the `try`/`except` turns into the
sentinel `"N/A"`. -/
def get_pairwise_judge_explanation (gamekey : GameKey)
    (judgment_dict : JudgmentDict) : String :=
  let qid := gamekey.1
  let model_1 := gamekey.2.1
  let model_2 := gamekey.2.2
  if pyStrLt model_1 model_2 then
    match alist_lookup judgment_dict gamekey with
    | none => "N/A"
    | some res =>
      pairwise_explanation_text model_1 model_2 res.g1_judgment res.g2_judgment
  else
    match alist_lookup judgment_dict (qid, model_2, model_1) with
    | none => "N/A"
    | some res =>
      pairwise_explanation_text model_1 model_2 res.g2_judgment res.g1_judgment

/-- Single-answer judge result: `{score, judgment}`. -/
structure SingleResult where
  score : Int
  judgment : String
deriving DecidableEq

/-- Embedding of `get_single_judge_explanation` (common.py:595-610). -/
def get_single_judge_explanation (gamekey : Nat × String)
    (judgment_dict : List ((Nat × String) × SingleResult)) : String :=
  match alist_lookup judgment_dict gamekey with
  | none => "N/A"
  | some res =>
    "**Game 1**. **A**: " ++ gamekey.2 ++ ", **Score**: " ++ toString res.score ++
      "\n\n**Judgment**: " ++ res.judgment

/-! ### House-traversal scorer
(`house_traversal_process_results`, house_traversal/utils.py:5-24) -/

/-- Embedding of Python `str.lower()` restricted to ASCII letters (the only
characters the embedded inputs contain). -/
def pyLower (c : Char) : Char :=
  if 'A' ≤ c ∧ c ≤ 'Z' then Char.ofNat (c.toNat + 32) else c

/-- Embedding of Python `str.split(" ")`: split on every single space,
keeping empty pieces. -/
def splitOnSpaceAux : List Char → List Char → List (List Char)
  | [], acc => [acc.reverse]
  | c :: rest, acc =>
    if c = ' ' then acc.reverse :: splitOnSpaceAux rest []
    else splitOnSpaceAux rest (c :: acc)

/-- `splitOnSpace s` is `s.split(" ")` on char lists. -/
def splitOnSpace (s : List Char) : List (List Char) :=
  splitOnSpaceAux s []

/-- Embedding of Python `needle in haystack` on strings (substring test). -/
def isSubstr (needle haystack : List Char) : Bool :=
  (List.range (haystack.length + 1)).any
    (fun i => (haystack.drop i).take needle.length = needle)

/-- Length of the run of `'*'` characters at the head of the list. -/
def starRun : List Char → Nat
  | [] => 0
  | c :: rest => if c = '*' then starRun rest + 1 else 0

/-- The lazy group `(.*?)` followed by the backreference `\1` (which is `k`
asterisks): starting from the shortest content, grow one (non-newline)
character at a time until the closing marker run fits.  Returns the
content and the remainder after the closing markers. -/
def findContent (k : Nat) : List Char → List Char → Option (List Char × List Char)
  | acc, [] => if k = 0 then some (acc.reverse, []) else none
  | acc, c :: rest =>
    if (c :: rest).take k = List.replicate k '*' then
      some (acc.reverse, (c :: rest).drop k)
    else if c = '\n' then none
    else findContent k (c :: acc) rest

/-- The greedy group `(\*{2,})`: try the longest opening marker run first
(callers start from the full run length at the current position) and
backtrack down to 2.  Returns the marker-run length, the content and the
remainder after the match. -/
def matchAtAux (s : List Char) : Nat → Option (Nat × List Char × List Char)
  | 0 => none
  | 1 => none
  | k + 2 =>
    match findContent (k + 2) [] (s.drop (k + 2)) with
    | some (content, rest) => some (k + 2, content, rest)
    | none => matchAtAux s (k + 1)

/-- Scanning loop of `re.findall(r'(\*\x7b2,\x7d)(.*?)\1', s)`: try a match at
every position left to right; on success record the two groups and resume
after the match, otherwise advance one character.  The fuel argument is the
remaining string length (every step consumes at least one character). -/
def findallAux : Nat → List Char → List (Nat × List Char)
  | 0, _ => []
  | _ + 1, [] => []
  | fuel + 1, s =>
    match matchAtAux s (starRun s) with
    | some (k, content, rest) => (k, content) :: findallAux fuel rest
    | none => findallAux fuel s.tail

/-- All emphasis spans of `s`, as (marker-run length, content) pairs, the
embedding of `re.findall(r'(\*\x7b2,\x7d)(.*?)\1', s)`. -/
def findBold (s : List Char) : List (Nat × List Char) :=
  findallAux s.length s

/-- Embedding of `house_traversal_process_results`
(house_traversal/utils.py:5-24).  `none` is a Python exception: the final
check subscripts single characters of the last bold span
(`last_bold[-1 - i]`), which raises `IndexError` when the span is shorter
than the token list; `name in last_bold[-1 - i]` tests `name` against a
one-character string. -/
def house_traversal_process_results (ground_truth llm_answer : String) :
    Option Nat :=
  let bold_words := findBold (llm_answer.data.map pyLower)
  if bold_words.length = 0 then some 0
  else
    let last_bold := (bold_words.getLastD (0, [])).2
    let ground_truth_names := splitOnSpace (ground_truth.data.map pyLower)
    if ground_truth_names.all (fun name => isSubstr name last_bold) then some 1
    else if ground_truth_names.length ≤ bold_words.length then
      if last_bold.length < ground_truth_names.length then none
      else if (List.range ground_truth_names.length).all (fun i =>
          isSubstr (ground_truth_names.reverse.getD i [])
            [last_bold.getD (last_bold.length - 1 - i) ' ']) then some 1
      else some 0
    else some 0

end LiveBench

namespace LiveBench

/-! ### Helper lemmas -/

/-- `listCharLt` is asymmetric. -/
theorem listCharLt_asymm :
    ∀ as bs : List Char, listCharLt as bs = true → listCharLt bs as = false := by
  intro as
  induction as with
  | nil =>
    intro bs h
    cases bs with
    | nil => simp [listCharLt] at h
    | cons b t => simp [listCharLt]
  | cons a as ih =>
    intro bs h
    cases bs with
    | nil => simp [listCharLt] at h
    | cons b t =>
      by_cases hab : a = b
      · subst hab
        simp only [listCharLt, if_pos rfl] at h ⊢
        exact ih t h
      · have hlt : a < b := by
          simpa [listCharLt, hab] using h
        have hne : ¬ b = a := fun hc => hab hc.symm
        have : ¬ b < a := lt_asymm hlt
        simp [listCharLt, hne, this]

/-- Asymmetry of the embedded Python string comparison. -/
theorem pyStrLt_asymm (a b : String) (h : pyStrLt a b = true) :
    pyStrLt b a = false :=
  listCharLt_asymm a.data b.data h

/-- Looking up the key just inserted returns the inserted value. -/
theorem alist_lookup_insert_self {α β : Type} [DecidableEq α]
    (l : List (α × β)) (k : α) (v : β) :
    alist_lookup (alist_insert l k v) k = some v := by
  induction l with
  | nil => simp [alist_insert, alist_lookup]
  | cons p t ih =>
    by_cases h : p.1 = k
    · simp [alist_insert, alist_lookup, h]
    · simp [alist_insert, alist_lookup, h, ih]

/-- Every entry of `alist_insert l k v` is the inserted pair or an original
entry. -/
theorem mem_alist_insert {α β : Type} [DecidableEq α]
    {l : List (α × β)} {k : α} {v : β} {p : α × β}
    (h : p ∈ alist_insert l k v) : p = (k, v) ∨ p ∈ l := by
  induction l with
  | nil => simpa [alist_insert] using h
  | cons q t ih =>
    by_cases hq : q.1 = k
    · simp only [alist_insert, if_pos hq, List.mem_cons] at h
      rcases h with h | h
      · exact Or.inl h
      · exact Or.inr (List.mem_cons_of_mem _ h)
    · simp only [alist_insert, if_neg hq, List.mem_cons] at h
      rcases h with h | h
      · exact Or.inr (by simp [h])
      · rcases ih h with h' | h'
        · exact Or.inl h'
        · exact Or.inr (List.mem_cons_of_mem _ h')

/-- The key list after an insertion: unchanged if the key was present,
extended by the key otherwise. -/
theorem alist_insert_keys {α β : Type} [DecidableEq α]
    (l : List (α × β)) (k : α) (v : β) :
    (alist_insert l k v).map Prod.fst =
      if k ∈ l.map Prod.fst then l.map Prod.fst else l.map Prod.fst ++ [k] := by
  induction l with
  | nil => simp [alist_insert]
  | cons p t ih =>
    by_cases hp : p.1 = k
    · simp [alist_insert, hp]
    · have hk : (k ∈ p.1 :: t.map Prod.fst) ↔ k ∈ t.map Prod.fst := by
        constructor
        · intro h
          rcases List.mem_cons.mp h with h | h
          · exact absurd h.symm hp
          · exact h
        · exact List.mem_cons_of_mem _
      by_cases ht : k ∈ t.map Prod.fst
      · simp [alist_insert, hp, ih, ht, hk]
      · simp [alist_insert, hp, ih, ht, hk]

/-- Insertion preserves distinctness of the keys. -/
theorem alist_insert_nodup {α β : Type} [DecidableEq α]
    {l : List (α × β)} (k : α) (v : β) (h : (l.map Prod.fst).Nodup) :
    ((alist_insert l k v).map Prod.fst).Nodup := by
  rw [alist_insert_keys]
  by_cases hk : k ∈ l.map Prod.fst
  · simpa [hk] using h
  · simp [hk, List.nodup_append, h]

/-! ### Claim theorems (canonicalizer) -/

/-- C1: for a pairwise game key `(q, a, b)` with `a > b` (that is,
`pyStrLt b a`), `normalize_game_key_single` returns the key `(q, b, a)`
together with a result whose `g1_judgment`/`g2_judgment` are swapped and
whose `winners` entries are remapped through the fixed relabeling table; for
`a < b` it returns key and result unchanged. -/
theorem claim_C1 (q : Nat) (a b : String) (r : PairResult) :
    (pyStrLt b a = true →
      normalize_game_key_single (q, a, b) r =
        ((q, b, a),
         ⟨r.winners.map reverse_model_map, r.g2_judgment, r.g1_judgment⟩)) ∧
    (pyStrLt a b = true → normalize_game_key_single (q, a, b) r = ((q, a, b), r)) := by
  constructor
  · intro hba
    have hnab : pyStrLt a b = false := pyStrLt_asymm b a hba
    simp [normalize_game_key_single, hnab]
  · intro hab
    simp [normalize_game_key_single, hab]

/-- Witness for C1 at a concrete non-canonical key. -/
theorem claim_C1_witness :
    normalize_game_key_single (7, "b", "a") ⟨["model_1", "tie"], "J1", "J2"⟩ =
      ((7, "a", "b"), ⟨["model_2", "tie"], "J2", "J1"⟩) :=
  (claim_C1 7 "b" "a" ⟨["model_1", "tie"], "J1", "J2"⟩).1 (by decide)

/-! ### Claim theorems (dict normalization) -/

/-- `normalize_dict_go` over a concatenation processes the parts in turn. -/
theorem normalize_dict_go_append (d1 d2 : JudgmentDict) :
    ∀ ret, normalize_dict_go ret (d1 ++ d2) =
      normalize_dict_go (normalize_dict_go ret d1) d2 := by
  induction d1 with
  | nil => intro ret; rfl
  | cons kv rest ih =>
    intro ret
    cases kv with
    | mk key value => simpa [normalize_dict_go] using ih _

/-- Every entry produced by `normalize_dict_go` comes from the accumulator or
is the normalization of an input entry. -/
theorem normalize_dict_go_mem (d : JudgmentDict) :
    ∀ ret p, p ∈ normalize_dict_go ret d →
      p ∈ ret ∨ ∃ kv ∈ d, p = normalize_game_key_single kv.1 kv.2 := by
  induction d with
  | nil => intro ret p hp; exact Or.inl hp
  | cons kv rest ih =>
    intro ret p hp
    cases kv with
    | mk key value =>
      simp only [normalize_dict_go] at hp
      rcases ih _ p hp with h | ⟨kv', hkv', hp'⟩
      · rcases mem_alist_insert h with h' | h'
        · exact Or.inr ⟨(key, value), List.mem_cons_self _ _, h'⟩
        · exact Or.inl h'
      · exact Or.inr ⟨kv', List.mem_cons_of_mem _ hkv', hp'⟩

/-- C8 (amended): `normalize_game_key_dict` produces a mapping each of whose
entries is the normalization of some input entry, and when two distinct input
keys normalize to the same canonical key the later entry (in input order)
silently overwrites the earlier one — no error is reported.  The second
conjunct states the overwrite: the value stored at the canonical key of the
last input entry is that entry's normalized value, whatever came before. -/
theorem claim_C8 :
    (∀ d : JudgmentDict, ∀ p ∈ normalize_game_key_dict d,
      ∃ kv ∈ d, p = normalize_game_key_single kv.1 kv.2) ∧
    (∀ (d : JudgmentDict) (k : GameKey) (v : PairResult),
      alist_lookup (normalize_game_key_dict (d ++ [(k, v)]))
          (normalize_game_key_single k v).1 =
        some (normalize_game_key_single k v).2) := by
  constructor
  · intro d p hp
    rcases normalize_dict_go_mem d [] p hp with h | h
    · simp at h
    · exact h
  · intro d k v
    unfold normalize_game_key_dict
    rw [normalize_dict_go_append]
    simp only [normalize_dict_go]
    exact alist_lookup_insert_self _ _ _

/-- Witness for C8 at a concrete one-entry dict. -/
theorem claim_C8_witness :
    ∃ kv ∈ ([((1, "b", "a"), ⟨["A"], "x", "y"⟩)] : JudgmentDict),
      (((1, "a", "b"), ⟨["A"], "y", "x"⟩) : GameKey × PairResult) =
        normalize_game_key_single kv.1 kv.2 :=
  claim_C8.1 [((1, "b", "a"), ⟨["A"], "x", "y"⟩)]
    ((1, "a", "b"), ⟨["A"], "y", "x"⟩) (by decide)

/-- Counterexample for C8 as stated: the two distinct keys `(1, "b", "a")`
and `(1, "a", "b")` both normalize to the canonical key `(1, "a", "b")`, yet
`normalize_game_key_dict` returns a single silently-overwritten entry instead
of reporting a data-integrity error. -/
theorem claim_C8_counterexample :
    ((1, "b", "a") : GameKey) ≠ (1, "a", "b") ∧
    (normalize_game_key_single (1, "b", "a") ⟨["A"], "x", "y"⟩).1 =
      (normalize_game_key_single (1, "a", "b") ⟨["B"], "p", "q"⟩).1 ∧
    normalize_game_key_dict
        [((1, "b", "a"), ⟨["A"], "x", "y"⟩), ((1, "a", "b"), ⟨["B"], "p", "q"⟩)] =
      [((1, "a", "b"), ⟨["B"], "p", "q"⟩)] := by
  refine ⟨by decide, by decide, by rfl⟩

/-! ### Claim theorems (judgment loader) -/

/-- The key returned by `normalize_game_key_single` is canonical: its second
model is not smaller than its first. -/
theorem normalize_single_canonical (k : GameKey) (v : PairResult) :
    pyStrLt (normalize_game_key_single k v).1.2.2
      (normalize_game_key_single k v).1.2.1 = false := by
  by_cases h : pyStrLt k.2.1 k.2.2 = true
  · simp only [normalize_game_key_single, if_pos h]
    exact pyStrLt_asymm _ _ h
  · simp only [normalize_game_key_single, if_neg h]
    exact Bool.not_eq_true _ ▸ (Bool.of_not_eq_true h)

/-- Every entry of a normalized dict has a canonical key. -/
theorem normalize_dict_canonical (d : JudgmentDict) :
    ∀ e ∈ normalize_game_key_dict d, pyStrLt e.1.2.2 e.1.2.1 = false := by
  intro e he
  rcases (normalize_dict_go_mem d [] e he) with h | ⟨kv, _, he'⟩
  · simp at h
  · rw [he']
    exact normalize_single_canonical kv.1 kv.2

/-- `normalize_dict_go` preserves distinctness of the keys. -/
theorem normalize_dict_go_nodup (d : JudgmentDict) :
    ∀ ret : JudgmentDict, (ret.map Prod.fst).Nodup →
      ((normalize_dict_go ret d).map Prod.fst).Nodup := by
  induction d with
  | nil => intro ret h; exact h
  | cons kv rest ih =>
    intro ret h
    cases kv with
    | mk key value =>
      simp only [normalize_dict_go]
      exact ih _ (alist_insert_nodup _ _ h)

/-- The keys of a normalized dict are distinct. -/
theorem normalize_dict_nodup (d : JudgmentDict) :
    ((normalize_game_key_dict d).map Prod.fst).Nodup :=
  normalize_dict_go_nodup d [] (by simp)

/-- One loader step preserves distinctness of the judge keys. -/
theorem load_pairwise_step_nodup (jd jd' : JudgeDict) (obj : PairRecord)
    (h : load_pairwise_step jd obj = Except.ok jd')
    (hn : (jd.map Prod.fst).Nodup) : (jd'.map Prod.fst).Nodup := by
  unfold load_pairwise_step at h
  have hn2 : (((if (alist_lookup jd obj.judge).isSome then jd
      else alist_insert jd obj.judge []) : JudgeDict).map Prod.fst).Nodup := by
    by_cases hj : (alist_lookup jd obj.judge).isSome
    · simpa [hj] using hn
    · simp only [hj, if_false]
      exact alist_insert_nodup _ _ hn
  cases hd : derive_winner obj with
  | error e => rw [hd] at h; exact absurd h (by simp)
  | ok w =>
    rw [hd] at h
    simp only [Except.ok.injEq] at h
    rw [← h]
    exact alist_insert_nodup _ _ hn2

/-- The loader loop preserves distinctness of the judge keys. -/
theorem load_pairwise_go_nodup (records : List PairRecord) :
    ∀ jd0 jd : JudgeDict, load_pairwise_go records jd0 = Except.ok jd →
      (jd0.map Prod.fst).Nodup → (jd.map Prod.fst).Nodup := by
  induction records with
  | nil =>
    intro jd0 jd h hn
    simp only [load_pairwise_go, Except.ok.injEq] at h
    rwa [← h]
  | cons obj rest ih =>
    intro jd0 jd h hn
    simp only [load_pairwise_go] at h
    cases hs : load_pairwise_step jd0 obj with
    | error e => rw [hs] at h; exact absurd h (by simp)
    | ok jd1 =>
      rw [hs] at h
      exact ih jd1 jd h (load_pairwise_step_nodup jd0 jd1 obj hs hn)

/-- The loader loop over a concatenation processes the parts in turn. -/
theorem load_pairwise_go_append (l1 l2 : List PairRecord) :
    ∀ jd0 : JudgeDict, load_pairwise_go (l1 ++ l2) jd0 =
      match load_pairwise_go l1 jd0 with
      | Except.error e => Except.error e
      | Except.ok jd1 => load_pairwise_go l2 jd1 := by
  induction l1 with
  | nil => intro jd0; rfl
  | cons obj rest ih =>
    intro jd0
    simp only [List.cons_append, load_pairwise_go]
    cases hs : load_pairwise_step jd0 obj with
    | error e => rfl
    | ok jd1 => exact ih jd1

/-- C4 (amended): in the index returned by `load_pairwise_model_judgments`
every stored pairwise game key is canonical (its `model_1` sorted no later
than its `model_2`) and for each judge and game key there is exactly one
result entry (all key lists are duplicate-free).  In the pre-normalization
index a later record replaces an earlier one with the same raw
`(question_id, model_1, model_2)` key (last-write-wins): the entry stored for
the last record's raw key is exactly that record's parsed result.  (As the
counterexample shows, after normalization merges the two orientations of a
key, the surviving entry need not come from the last record.) -/
theorem claim_C4 :
    (∀ (records : List PairRecord) (jd : JudgeDict),
      load_pairwise_model_judgments records = Except.ok jd →
      (∀ jp ∈ jd, ∀ e ∈ jp.2, pyStrLt e.1.2.2 e.1.2.1 = false) ∧
      (jd.map Prod.fst).Nodup ∧
      (∀ jp ∈ jd, (jp.2.map Prod.fst).Nodup)) ∧
    (∀ (rs : List PairRecord) (obj : PairRecord) (jd : JudgeDict) (w : String),
      load_pairwise_go (rs ++ [obj]) [] = Except.ok jd →
      derive_winner obj = Except.ok w →
      ∃ inner, alist_lookup jd obj.judge = some inner ∧
        alist_lookup inner (obj.question_id, obj.model_1, obj.model_2) =
          some ⟨[w], obj.g1_judgment, obj.g2_judgment⟩) := by
  constructor
  · intro records jd h
    unfold load_pairwise_model_judgments at h
    cases hg : load_pairwise_go records [] with
    | error e => rw [hg] at h; exact absurd h (by simp)
    | ok raw =>
      rw [hg] at h
      simp only [Except.ok.injEq] at h
      subst h
      refine ⟨?_, ?_, ?_⟩
      · intro jp hjp e he
        rcases List.mem_map.mp hjp with ⟨rawjp, _, hjp'⟩
        rw [← hjp'] at he
        exact normalize_dict_canonical rawjp.2 e he
      · have : ((raw.map fun jp => (jp.1, normalize_game_key_dict jp.2)).map Prod.fst)
            = raw.map Prod.fst := by
          simp [List.map_map, Function.comp]
        rw [this]
        exact load_pairwise_go_nodup records [] raw hg (by simp)
      · intro jp hjp
        rcases List.mem_map.mp hjp with ⟨rawjp, _, hjp'⟩
        rw [← hjp']
        exact normalize_dict_nodup rawjp.2
  · intro rs obj jd w hload hw
    rw [load_pairwise_go_append] at hload
    cases hg : load_pairwise_go rs [] with
    | error e => rw [hg] at hload; exact absurd hload (by simp)
    | ok jd1 =>
      rw [hg] at hload
      simp only [load_pairwise_go] at hload
      cases hs : load_pairwise_step jd1 obj with
      | error e => rw [hs] at hload; exact absurd hload (by simp)
      | ok jd2 =>
        rw [hs] at hload
        simp only [load_pairwise_go, Except.ok.injEq] at hload
        subst hload
        unfold load_pairwise_step at hs
        rw [hw] at hs
        simp only [Except.ok.injEq] at hs
        rw [← hs]
        exact ⟨_, alist_lookup_insert_self _ _ _, alist_lookup_insert_self _ _ _⟩

/-- Witness for C4: a two-record stream where the second record overwrites
the first one's raw key. -/
theorem claim_C4_witness :
    ∃ inner,
      alist_lookup
          [(["gpt-4", "pair-v2"],
            [(((1 : Nat), "a", "b"), (⟨["X2"], "g1b", "g2b"⟩ : PairResult))])]
          ["gpt-4", "pair-v2"] = some inner ∧
      alist_lookup inner ((1 : Nat), "a", "b") =
        some ⟨["X2"], "g1b", "g2b"⟩ :=
  claim_C4.2
    [⟨["gpt-4", "pair-v2"], 1, "a", "b", some "X1", none, none, "g1a", "g2a"⟩]
    ⟨["gpt-4", "pair-v2"], 1, "a", "b", some "X2", none, none, "g1b", "g2b"⟩
    [(["gpt-4", "pair-v2"], [((1, "a", "b"), ⟨["X2"], "g1b", "g2b"⟩)])]
    "X2" (by rfl) (by rfl)

/-- Counterexample for C4 as stated: in the stream below the last record for
the canonical key `(1, "a", "b")` is the third one (raw key `(1, "b", "a")`,
normalized value `⟨["X3"], "g2c", "g1c"⟩`), yet the index keeps the second
record's value — later records do not always replace earlier ones with the
same (canonical) key. -/
theorem claim_C4_counterexample :
    load_pairwise_model_judgments
        [⟨["gpt-4", "pair-v2"], 1, "b", "a", some "X1", none, none, "g1a", "g2a"⟩,
         ⟨["gpt-4", "pair-v2"], 1, "a", "b", some "X2", none, none, "g1b", "g2b"⟩,
         ⟨["gpt-4", "pair-v2"], 1, "b", "a", some "X3", none, none, "g1c", "g2c"⟩] =
      Except.ok [(["gpt-4", "pair-v2"], [((1, "a", "b"), ⟨["X2"], "g1b", "g2b"⟩)])] ∧
    normalize_game_key_single (1, "b", "a") ⟨["X3"], "g1c", "g2c"⟩ =
      ((1, "a", "b"), ⟨["X3"], "g2c", "g1c"⟩) ∧
    (⟨["X2"], "g1b", "g2b"⟩ : PairResult) ≠ ⟨["X3"], "g2c", "g1c"⟩ := by
  refine ⟨by rfl, by rfl, by decide⟩

/-! ### Claim theorem for the per-record winner derivation -/

/-- C3: for a record carrying a `winner` field the parsed entry stores that
single value as `winners`; for a record with both `g1_winner` and
`g2_winner` it stores their common value, or `"inconsistent"` when they
differ; a record with neither combination makes loading fail. -/
theorem claim_C3 (obj : PairRecord) :
    (∀ w, obj.winner = some w →
      load_pairwise_step [] obj =
        Except.ok [(obj.judge, [((obj.question_id, obj.model_1, obj.model_2),
          ⟨[w], obj.g1_judgment, obj.g2_judgment⟩)])]) ∧
    (∀ g1 g2, obj.winner = none → obj.g1_winner = some g1 →
      obj.g2_winner = some g2 →
      load_pairwise_step [] obj =
        Except.ok [(obj.judge, [((obj.question_id, obj.model_1, obj.model_2),
          ⟨[if g1 = g2 then g1 else "inconsistent"],
           obj.g1_judgment, obj.g2_judgment⟩)])]) ∧
    (obj.winner = none → obj.g1_winner = none ∨ obj.g2_winner = none →
      load_pairwise_model_judgments [obj] = Except.error "Invalid keys") := by
  refine ⟨?_, ?_, ?_⟩
  · intro w hw
    simp [load_pairwise_step, derive_winner, hw, alist_lookup, alist_insert]
  · intro g1 g2 hw h1 h2
    by_cases hg : g1 = g2 <;>
      simp [load_pairwise_step, derive_winner, hw, h1, h2, hg,
        alist_lookup, alist_insert]
  · intro hw hg
    have hd : derive_winner obj = Except.error "Invalid keys" := by
      rcases hg with h | h
      · simp [derive_winner, hw, h]
      · cases hg1 : obj.g1_winner with
        | none => simp [derive_winner, hw, h, hg1]
        | some g => simp [derive_winner, hw, h, hg1]
    simp [load_pairwise_model_judgments, load_pairwise_go, load_pairwise_step, hd]

/-- Witness for C3 at concrete records covering the three branches. -/
theorem claim_C3_witness :
    load_pairwise_step [] ⟨["j"], 1, "a", "b", none, some "A", some "B", "g1", "g2"⟩ =
      Except.ok [(["j"], [((1, "a", "b"), ⟨["inconsistent"], "g1", "g2"⟩)])] :=
  ((claim_C3 ⟨["j"], 1, "a", "b", none, some "A", some "B", "g1", "g2"⟩).2.1
    "A" "B" rfl rfl rfl).trans (by rfl)

/-! ### Claim theorems (match building) -/

/-- The inner model loop appends one match per model, in list order, when
every lookup succeeds. -/
theorem make_match_inner_ok (q : Question) (model_answers : ModelAnswers)
    (mt : Bool) (f : String → Nat → String) :
    ∀ (ms : List String) (acc : List MatchSingle),
      (∀ m ∈ ms, ∃ ma, alist_lookup model_answers m = some ma ∧
        alist_lookup ma q.question_id = some (f m q.question_id)) →
      make_match_inner q model_answers mt ms acc =
        Except.ok (acc ++ ms.map (fun m => ⟨q, m, f m q.question_id, none, mt⟩)) := by
  intro ms
  induction ms with
  | nil => intro acc h; simp [make_match_inner]
  | cons m ms ih =>
    intro acc h
    rcases h m (List.mem_cons_self m ms) with ⟨ma, hma, hq⟩
    simp only [make_match_inner, hma, hq]
    rw [ih _ (fun m' hm' => h m' (List.mem_cons_of_mem _ hm'))]
    simp

/-- The outer question loop: skipped questions (turn count ≠ 2 under
`multi_turn`) contribute nothing, every kept question contributes one match
per model. -/
theorem make_match_go_ok (models : List String) (model_answers : ModelAnswers)
    (mt : Bool) (f : String → Nat → String) :
    ∀ (qs : List Question) (acc : List MatchSingle),
      (∀ m ∈ models, ∃ ma, alist_lookup model_answers m = some ma ∧
        ∀ q ∈ qs, alist_lookup ma q.question_id = some (f m q.question_id)) →
      make_match_go models model_answers mt qs acc =
        Except.ok (acc ++
          (if mt then qs.filter (fun q => q.turns.length == 2) else qs).flatMap
            (fun q => models.map (fun m => ⟨q, m, f m q.question_id, none, mt⟩))) := by
  intro qs
  induction qs with
  | nil => intro acc h; cases mt <;> simp [make_match_go]
  | cons q qs ih =>
    intro acc h
    have hq : ∀ m ∈ models, ∃ ma, alist_lookup model_answers m = some ma ∧
        alist_lookup ma q.question_id = some (f m q.question_id) := by
      intro m hm
      rcases h m hm with ⟨ma, hma, hall⟩
      exact ⟨ma, hma, hall q (List.mem_cons_self _ _)⟩
    have hrest : ∀ m ∈ models, ∃ ma, alist_lookup model_answers m = some ma ∧
        ∀ q' ∈ qs, alist_lookup ma q'.question_id = some (f m q'.question_id) := by
      intro m hm
      rcases h m hm with ⟨ma, hma, hall⟩
      exact ⟨ma, hma, fun q' hq' => hall q' (List.mem_cons_of_mem _ hq')⟩
    by_cases hskip : (mt && q.turns.length != 2) = true
    · obtain ⟨hmt, hlen⟩ : mt = true ∧ (q.turns.length != 2) = true := by
        simpa using hskip
      have hlen2 : (q.turns.length == 2) = false := by
        simpa using hlen
      simp only [make_match_go, if_pos hskip]
      rw [ih acc hrest]
      subst hmt
      simp [List.filter_cons, hlen2]
    · have hin := make_match_inner_ok q model_answers mt f models acc hq
      simp only [make_match_go, if_neg hskip, hin]
      rw [ih _ hrest]
      cases hmt : mt with
      | false =>
        simp
      | true =>
        have hlen2 : (q.turns.length == 2) = true := by
          rw [hmt] at hskip
          simpa using hskip
        simp [List.filter_cons, hlen2]

/-- C5: `make_match_single` returns exactly the cross-product of the
questions (restricted, when `multi_turn` is set, to those with exactly two
turns) with the models, ordered with the questions outermost in input order
and the models innermost in list order, each match carrying the looked-up
answer. -/
theorem claim_C5 (questions : List Question) (models : List String)
    (model_answers : ModelAnswers) (multi_turn : Bool)
    (f : String → Nat → String)
    (hf : ∀ m ∈ models, ∃ ma, alist_lookup model_answers m = some ma ∧
      ∀ q ∈ questions, alist_lookup ma q.question_id = some (f m q.question_id)) :
    make_match_single questions models model_answers multi_turn =
      Except.ok
        ((if multi_turn then questions.filter (fun q => q.turns.length == 2)
          else questions).flatMap
          (fun q => models.map
            (fun m => ⟨q, m, f m q.question_id, none, multi_turn⟩))) := by
  have h := make_match_go_ok models model_answers multi_turn f questions [] hf
  simpa [make_match_single] using h

/-- Witness for C5: one single-turn and one two-turn question under
`multi_turn`, a single model. -/
theorem claim_C5_witness :
    make_match_single [⟨1, "c", ["t"]⟩, ⟨2, "c", ["t1", "t2"]⟩] ["m"]
        [("m", [(1, "a1"), (2, "a2")])] true =
      Except.ok [⟨⟨2, "c", ["t1", "t2"]⟩, "m", "a2", none, true⟩] :=
  claim_C5 [⟨1, "c", ["t"]⟩, ⟨2, "c", ["t1", "t2"]⟩] ["m"]
    [("m", [(1, "a1"), (2, "a2")])] true
    (fun _ qid => if qid = 1 then "a1" else "a2")
    (by
      intro m hm
      have hm' : m = "m" := by simpa using hm
      subst hm'
      refine ⟨[(1, "a1"), (2, "a2")], rfl, ?_⟩
      intro q hq
      rcases List.mem_cons.mp hq with h | h
      · subst h; rfl
      · have h' : q = ⟨2, "c", ["t1", "t2"]⟩ := by simpa using h
        subst h'; rfl)

/-- Every match stored by the inner loop is an accumulator entry or has no
reference answer and the requested `multi_turn` flag. -/
theorem make_match_inner_mem (q : Question) (model_answers : ModelAnswers)
    (mt : Bool) :
    ∀ (ms : List String) (acc out : List MatchSingle),
      make_match_inner q model_answers mt ms acc = Except.ok out →
      ∀ x ∈ out, x ∈ acc ∨ (x.ref_answer = none ∧ x.multi_turn = mt) := by
  intro ms
  induction ms with
  | nil =>
    intro acc out h x hx
    simp only [make_match_inner, Except.ok.injEq] at h
    subst h
    exact Or.inl hx
  | cons m ms ih =>
    intro acc out h x hx
    simp only [make_match_inner] at h
    split at h
    · exact absurd h (by simp)
    · split at h
      · exact absurd h (by simp)
      · rename_i a hq
        rcases ih _ out h x hx with hacc | hp
        · rcases List.mem_append.mp hacc with h' | h'
          · exact Or.inl h'
          · have hx' : x = ⟨q, m, a, none, mt⟩ := by simpa using h'
            subst hx'
            exact Or.inr ⟨rfl, rfl⟩
        · exact Or.inr hp

/-- Every match stored by the outer loop is an accumulator entry or has no
reference answer and the requested `multi_turn` flag. -/
theorem make_match_go_mem (models : List String) (model_answers : ModelAnswers)
    (mt : Bool) :
    ∀ (qs : List Question) (acc out : List MatchSingle),
      make_match_go models model_answers mt qs acc = Except.ok out →
      ∀ x ∈ out, x ∈ acc ∨ (x.ref_answer = none ∧ x.multi_turn = mt) := by
  intro qs
  induction qs with
  | nil =>
    intro acc out h x hx
    simp only [make_match_go, Except.ok.injEq] at h
    subst h
    exact Or.inl hx
  | cons q qs ih =>
    intro acc out h x hx
    simp only [make_match_go] at h
    by_cases hskip : (mt && q.turns.length != 2) = true
    · rw [if_pos hskip] at h
      exact ih acc out h x hx
    · rw [if_neg hskip] at h
      split at h
      · exact absurd h (by simp)
      · rename_i acc1 hin
        rcases ih acc1 out h x hx with hacc | hp
        · rcases make_match_inner_mem q model_answers mt models acc acc1 hin x hacc with
            h' | h'
          · exact Or.inl h'
          · exact Or.inr h'
        · exact Or.inr hp

/-- C10: every `MatchSingle` produced by `make_match_single` has
`ref_answer = None` and `multi_turn` equal to the argument: the pairing step
never populates a reference answer. -/
theorem claim_C10 (questions : List Question) (models : List String)
    (model_answers : ModelAnswers) (multi_turn : Bool)
    (out : List MatchSingle)
    (h : make_match_single questions models model_answers multi_turn =
      Except.ok out) :
    ∀ x ∈ out, x.ref_answer = none ∧ x.multi_turn = multi_turn := by
  intro x hx
  rcases make_match_go_mem models model_answers multi_turn questions [] out h x hx with
    h' | h'
  · simp at h'
  · exact h'

/-- Witness for C10 at a concrete match list. -/
theorem claim_C10_witness :
    ((⟨⟨1, "c", ["t1", "t2"]⟩, "m", "ans", none, true⟩ : MatchSingle).ref_answer
        = none ∧
      (⟨⟨1, "c", ["t1", "t2"]⟩, "m", "ans", none, true⟩ : MatchSingle).multi_turn
        = true) :=
  claim_C10 [⟨1, "c", ["t1", "t2"]⟩] ["m"] [("m", [(1, "ans")])] true
    [⟨⟨1, "c", ["t1", "t2"]⟩, "m", "ans", none, true⟩] (by rfl)
    ⟨⟨1, "c", ["t1", "t2"]⟩, "m", "ans", none, true⟩ (by simp)

/-! ### Claim theorems (completeness check) -/

/-- The inner question loop succeeds exactly when every question is
answered. -/
theorem check_model_ok_iff (m : String) (ma : List (Nat × String)) :
    ∀ qs : List Question, check_model m ma qs = Except.ok () ↔
      ∀ q ∈ qs, (alist_lookup ma q.question_id).isSome = true := by
  intro qs
  induction qs with
  | nil => simp [check_model]
  | cons q qs ih =>
    simp only [check_model]
    by_cases hq : (alist_lookup ma q.question_id).isSome = true
    · rw [if_pos hq]
      constructor
      · intro h q' hq'
        rcases List.mem_cons.mp hq' with h' | h'
        · rw [h']; exact hq
        · exact (ih.mp h) q' h'
      · intro h
        exact ih.mpr (fun q' hq' => h q' (List.mem_cons_of_mem _ hq'))
    · rw [if_neg hq]
      constructor
      · intro h; exact absurd h (by simp)
      · intro h; exact absurd (h q (List.mem_cons_self _ _)) hq

/-- A failing inner loop pinpoints the first unanswered question: all
earlier questions are answered, the failing one is not, and the error names
the model and that question's id. -/
theorem check_model_error (m : String) (ma : List (Nat × String)) :
    ∀ (qs : List Question) (e : CheckError),
      check_model m ma qs = Except.error e →
      ∃ qs1 q qs2, qs = qs1 ++ q :: qs2 ∧
        (∀ q' ∈ qs1, (alist_lookup ma q'.question_id).isSome = true) ∧
        alist_lookup ma q.question_id = none ∧
        e = CheckError.missingAnswer m q.question_id := by
  intro qs
  induction qs with
  | nil => intro e h; exact absurd h (by simp [check_model])
  | cons q qs ih =>
    intro e h
    simp only [check_model] at h
    by_cases hq : (alist_lookup ma q.question_id).isSome = true
    · rw [if_pos hq] at h
      rcases ih e h with ⟨qs1, q', qs2, hsplit, hall, hnone, he⟩
      refine ⟨q :: qs1, q', qs2, by simp [hsplit], ?_, hnone, he⟩
      intro q'' hq''
      rcases List.mem_cons.mp hq'' with h' | h'
      · rw [h']; exact hq
      · exact hall q'' h'
    · rw [if_neg hq] at h
      injection h with he
      have hnone : alist_lookup ma q.question_id = none := by
        cases hlook : alist_lookup ma q.question_id with
        | none => rfl
        | some v => rw [hlook] at hq; exact absurd rfl hq
      exact ⟨[], q, qs, by simp, by simp, hnone, he.symm⟩

/-- `check_data` succeeds exactly when every listed model is complete. -/
theorem check_data_ok_iff (questions : List Question)
    (model_answers : ModelAnswers) :
    ∀ ms : List String, check_data questions model_answers ms = Except.ok () ↔
      ∀ m ∈ ms, model_complete questions model_answers m := by
  intro ms
  induction ms with
  | nil => simp [check_data]
  | cons m ms ih =>
    cases hma : alist_lookup model_answers m with
    | none =>
      constructor
      · intro h
        exfalso
        simp [check_data, hma] at h
      · intro h
        exfalso
        rcases h m (List.mem_cons_self _ _) with ⟨ma, hma', _⟩
        rw [hma] at hma'
        cases hma'
    | some ma =>
      cases hcm : check_model m ma questions with
      | error e1 =>
        constructor
        · intro h
          exfalso
          simp [check_data, hma, hcm] at h
        · intro h
          exfalso
          rcases h m (List.mem_cons_self _ _) with ⟨ma', hma', hall⟩
          rw [hma] at hma'
          injection hma' with hma''
          subst hma''
          have hok := (check_model_ok_iff m ma questions).mpr hall
          rw [hcm] at hok
          cases hok
      | ok u =>
        cases u
        have heq : check_data questions model_answers (m :: ms) =
            check_data questions model_answers ms := by
          simp [check_data, hma, hcm]
        rw [heq, ih]
        constructor
        · intro h m' hm'
          rcases List.mem_cons.mp hm' with h' | h'
          · rw [h']
            exact ⟨ma, hma, (check_model_ok_iff m ma questions).mp hcm⟩
          · exact h m' h'
        · intro h m' hm'
          exact h m' (List.mem_cons_of_mem _ hm')

/-- A failing `check_data` pinpoints the first incomplete model in model-list
order: all earlier models are complete, and the error is either the
missing-model assertion or the first missing answer of that model. -/
theorem check_data_error (questions : List Question)
    (model_answers : ModelAnswers) :
    ∀ (ms : List String) (e : CheckError),
      check_data questions model_answers ms = Except.error e →
      ∃ ms1 m ms2, ms = ms1 ++ m :: ms2 ∧
        (∀ m' ∈ ms1, model_complete questions model_answers m') ∧
        ((alist_lookup model_answers m = none ∧ e = CheckError.missingModel m) ∨
         (∃ ma qs1 q qs2, alist_lookup model_answers m = some ma ∧
           questions = qs1 ++ q :: qs2 ∧
           (∀ q' ∈ qs1, (alist_lookup ma q'.question_id).isSome = true) ∧
           alist_lookup ma q.question_id = none ∧
           e = CheckError.missingAnswer m q.question_id)) := by
  intro ms
  induction ms with
  | nil => intro e h; exact absurd h (by simp [check_data])
  | cons m ms ih =>
    intro e h
    simp only [check_data] at h
    split at h
    · rename_i hma
      injection h with he
      exact ⟨[], m, ms, by simp, by simp, Or.inl ⟨hma, he.symm⟩⟩
    · rename_i ma hma
      split at h
      · rename_i e1 hcm
        injection h with he
        subst he
        rcases check_model_error m ma questions e1 hcm with
          ⟨qs1, q, qs2, hsplit, hall, hnone, heq⟩
        exact ⟨[], m, ms, by simp, by simp,
          Or.inr ⟨ma, qs1, q, qs2, hma, hsplit, hall, hnone, heq⟩⟩
      · rename_i u hcm
        rcases ih e h with ⟨ms1, m', ms2, hsplit, hall, hcase⟩
        refine ⟨m :: ms1, m', ms2, by simp [hsplit], ?_, hcase⟩
        intro m'' hm''
        rcases List.mem_cons.mp hm'' with h'' | h''
        · rw [h'']
          exact ⟨ma, hma, (check_model_ok_iff m ma questions).mp hcm⟩
        · exact hall m'' h''

/-- C6 (amended): `check_data` passes silently exactly when every model in
the list is present in the answer dict and has an answer for every question;
a missing-answer error pinpoints the first missing pair in model-then-question
order (outer loop over the model list, inner loop over the questions, failing
at the first miss); a model absent from the answer dict altogether fails with
a missing-model error naming only the model. -/
theorem claim_C6 :
    (∀ (questions : List Question) (model_answers : ModelAnswers)
      (models : List String),
      check_data questions model_answers models = Except.ok () ↔
        ∀ m ∈ models, model_complete questions model_answers m) ∧
    (∀ (questions : List Question) (model_answers : ModelAnswers)
      (models : List String) (m : String) (qid : Nat),
      check_data questions model_answers models =
        Except.error (CheckError.missingAnswer m qid) →
      ∃ ms1 ms2 ma qs1 q qs2,
        models = ms1 ++ m :: ms2 ∧
        (∀ m' ∈ ms1, model_complete questions model_answers m') ∧
        alist_lookup model_answers m = some ma ∧
        questions = qs1 ++ q :: qs2 ∧ q.question_id = qid ∧
        (∀ q' ∈ qs1, (alist_lookup ma q'.question_id).isSome = true) ∧
        alist_lookup ma q.question_id = none) ∧
    (∀ (questions : List Question) (model_answers : ModelAnswers)
      (models : List String) (m : String),
      check_data questions model_answers models =
        Except.error (CheckError.missingModel m) →
      ∃ ms1 ms2, models = ms1 ++ m :: ms2 ∧
        (∀ m' ∈ ms1, model_complete questions model_answers m') ∧
        alist_lookup model_answers m = none) := by
  refine ⟨fun qs ans ms => check_data_ok_iff qs ans ms, ?_, ?_⟩
  · intro qs ans ms m qid h
    rcases check_data_error qs ans ms _ h with ⟨ms1, m0, ms2, hsplit, hall, hcase⟩
    rcases hcase with ⟨_, heq⟩ | ⟨ma, qs1, q, qs2, hma, hqs, hall2, hnone, heq⟩
    · cases heq
    · injection heq with hm hqid
      subst hm
      exact ⟨ms1, ms2, ma, qs1, q, qs2, hsplit, hall, hma, hqs, hqid.symm,
        hall2, hnone⟩
  · intro qs ans ms m h
    rcases check_data_error qs ans ms _ h with ⟨ms1, m0, ms2, hsplit, hall, hcase⟩
    rcases hcase with ⟨hnone, heq⟩ | ⟨ma, qs1, q, qs2, hma, hqs, hall2, hnone, heq⟩
    · injection heq with hm
      subst hm
      exact ⟨ms1, ms2, hsplit, hall, hnone⟩
    · cases heq

/-- Witness for C6 at a complete concrete configuration. -/
theorem claim_C6_witness :
    check_data [⟨1, "c", []⟩] [("m", [(1, "a")])] ["m"] = Except.ok () :=
  (claim_C6.1 [⟨1, "c", []⟩] [("m", [(1, "a")])] ["m"]).mpr
    (by
      intro m hm
      have hm' : m = "m" := by simpa using hm
      subst hm'
      refine ⟨[(1, "a")], rfl, ?_⟩
      intro q hq
      have hq' : q = ⟨1, "c", []⟩ := by simpa using hq
      subst hq'
      rfl)

/-- Counterexample for C6 as stated: with questions `1, 2`, models
`"m1", "m2"`, `"m1"` answering only question 1 and `"m2"` answering only
question 2, the first missing pair in question-then-model order is
`(question 1, "m2")`, but `check_data` reports `("m1", question 2)` — the
loop runs model-major, not question-major. -/
theorem claim_C6_counterexample :
    check_data [⟨1, "c", []⟩, ⟨2, "c", []⟩]
        [("m1", [(1, "a")]), ("m2", [(2, "a")])] ["m1", "m2"] =
      Except.error (CheckError.missingAnswer "m1" 2) ∧
    CheckError.missingAnswer "m1" 2 ≠ CheckError.missingAnswer "m2" 1 := by
  refine ⟨by rfl, by decide⟩

/-! ### Claim theorem (judgment resolver) -/

/-- C7: `resolve_pairwise_judgment_dict` follows the fixed decision table —
multi-turn reference categories use the math index under
`("gpt-4", "pair-math-v1-multi-turn")`, other multi-turn questions the
normal index under `("gpt-4", "pair-v2-multi-turn")`, single-turn reference
categories the math index under `("gpt-4", "pair-math-v1")` and the rest the
normal index under `("gpt-4", "pair-v2")` — and fails with the missing-judge
(`KeyError`) error when the selected judge key is absent. -/
theorem claim_C7 (need_ref_cats : List String) (question : Question)
    (normal math : List ((String × String) × JudgmentDict)) :
    ((question.category ∈ need_ref_cats →
      (∀ d, alist_lookup math ("gpt-4", "pair-math-v1-multi-turn") = some d →
        resolve_pairwise_judgment_dict need_ref_cats question normal math true =
          Except.ok d) ∧
      (alist_lookup math ("gpt-4", "pair-math-v1-multi-turn") = none →
        resolve_pairwise_judgment_dict need_ref_cats question normal math true =
          Except.error "KeyError")) ∧
     (question.category ∉ need_ref_cats →
      (∀ d, alist_lookup normal ("gpt-4", "pair-v2-multi-turn") = some d →
        resolve_pairwise_judgment_dict need_ref_cats question normal math true =
          Except.ok d) ∧
      (alist_lookup normal ("gpt-4", "pair-v2-multi-turn") = none →
        resolve_pairwise_judgment_dict need_ref_cats question normal math true =
          Except.error "KeyError"))) ∧
    ((question.category ∈ need_ref_cats →
      (∀ d, alist_lookup math ("gpt-4", "pair-math-v1") = some d →
        resolve_pairwise_judgment_dict need_ref_cats question normal math false =
          Except.ok d) ∧
      (alist_lookup math ("gpt-4", "pair-math-v1") = none →
        resolve_pairwise_judgment_dict need_ref_cats question normal math false =
          Except.error "KeyError")) ∧
     (question.category ∉ need_ref_cats →
      (∀ d, alist_lookup normal ("gpt-4", "pair-v2") = some d →
        resolve_pairwise_judgment_dict need_ref_cats question normal math false =
          Except.ok d) ∧
      (alist_lookup normal ("gpt-4", "pair-v2") = none →
        resolve_pairwise_judgment_dict need_ref_cats question normal math false =
          Except.error "KeyError"))) := by
  refine ⟨⟨?_, ?_⟩, ⟨?_, ?_⟩⟩
  · intro hc
    exact ⟨fun d hd => by simp [resolve_pairwise_judgment_dict, hc, hd],
      fun hd => by simp [resolve_pairwise_judgment_dict, hc, hd]⟩
  · intro hc
    exact ⟨fun d hd => by simp [resolve_pairwise_judgment_dict, hc, hd],
      fun hd => by simp [resolve_pairwise_judgment_dict, hc, hd]⟩
  · intro hc
    exact ⟨fun d hd => by simp [resolve_pairwise_judgment_dict, hc, hd],
      fun hd => by simp [resolve_pairwise_judgment_dict, hc, hd]⟩
  · intro hc
    exact ⟨fun d hd => by simp [resolve_pairwise_judgment_dict, hc, hd],
      fun hd => by simp [resolve_pairwise_judgment_dict, hc, hd]⟩

/-- Witness for C7: a multi-turn math question resolves to the math index's
multi-turn judge. -/
theorem claim_C7_witness :
    resolve_pairwise_judgment_dict ["math"] ⟨1, "math", []⟩ []
        [(("gpt-4", "pair-math-v1-multi-turn"), [])] true = Except.ok [] :=
  ((claim_C7 ["math"] ⟨1, "math", []⟩ []
      [(("gpt-4", "pair-math-v1-multi-turn"), [])]).1.1
    (by decide)).1 [] (by rfl)

/-! ### Claim theorem (explanation formatters) -/

/-- C9: when the looked-up key is absent from the judgment dict — the key
itself for a canonical pairwise key, the swapped key otherwise, the key
itself for single grading — the explanation formatters return the sentinel
`"N/A"` instead of failing. -/
theorem claim_C9 :
    (∀ (gamekey : GameKey) (judgment_dict : JudgmentDict),
      (pyStrLt gamekey.2.1 gamekey.2.2 = true →
        alist_lookup judgment_dict gamekey = none →
        get_pairwise_judge_explanation gamekey judgment_dict = "N/A") ∧
      (pyStrLt gamekey.2.1 gamekey.2.2 = false →
        alist_lookup judgment_dict (gamekey.1, gamekey.2.2, gamekey.2.1) = none →
        get_pairwise_judge_explanation gamekey judgment_dict = "N/A")) ∧
    (∀ (gamekey : Nat × String)
      (judgment_dict : List ((Nat × String) × SingleResult)),
      alist_lookup judgment_dict gamekey = none →
      get_single_judge_explanation gamekey judgment_dict = "N/A") := by
  constructor
  · intro gk jd
    constructor
    · intro hlt hnone
      simp [get_pairwise_judge_explanation, hlt, hnone]
    · intro hlt hnone
      simp [get_pairwise_judge_explanation, hlt, hnone]
  · intro gk jd hnone
    simp [get_single_judge_explanation, hnone]

/-- Witness for C9: a lookup miss in an empty judgment dict. -/
theorem claim_C9_witness :
    get_pairwise_judge_explanation (1, "a", "b") [] = "N/A" :=
  (claim_C9.1 (1, "a", "b") []).1 (by decide) (by rfl)

/-! ### Claim theorem for the house-traversal scorer -/

/-- C2 as stated fails on the code: on the spec's own example the claimed
reverse-lockstep pairing holds (both emphasis spans contain their paired
tokens, there are as many spans as tokens, and not every token is in the last
span), yet the scorer returns 0, because the final check subscripts single
characters of the last span (`last_bold[-1 - i]`) instead of the span list.
The conjuncts exhibit the spans, the premises of the claim, the success of
the claimed pairing, and the actual result 0. -/
theorem claim_C2_code_eval :
    findBold ("**Alice** went home, **Bob** stayed".data.map pyLower) =
      [(2, "alice".data), (2, "bob".data)] ∧
    splitOnSpace ("Alice Bob".data.map pyLower) = ["alice".data, "bob".data] ∧
    (¬ (isSubstr "alice".data "bob".data = true ∧ isSubstr "bob".data "bob".data = true)) ∧
    (isSubstr "bob".data "bob".data = true ∧ isSubstr "alice".data "alice".data = true) ∧
    house_traversal_process_results "Alice Bob" "**Alice** went home, **Bob** stayed" =
      some 0 := by
  refine ⟨by decide, by decide, by decide, by decide, by decide⟩

end LiveBench
